import Mathlib

/-!
Verification of the indicator, range-filter and export core of the
Stock_Data_Viewer repository (stock_app.py).  The pandas/fpdf calls made by
the source are embedded shallowly: series become lists, NaN entries become
`none`, rationals stand for the float values and `Real.sqrt` for the float
square root, and the fallible image-rendering step becomes an `Except`
parameter.
-/

namespace StockApp

/-- Arithmetic mean of a list of values, as computed by pandas `Series.mean`. -/
def mean (l : List ℚ) : ℚ := l.sum / (l.length : ℚ)

/-- Sample variance (ddof = 1, the pandas `Series.std` default), i.e. the
square of the rolling standard deviation used by `bollinger_bands`. -/
def sampleVar (l : List ℚ) : ℚ :=
  ((l.map fun x => (x - mean l) ^ 2).sum) / ((l.length : ℚ) - 1)

/-- The trailing window of width `w` ending at index `i`, i.e. the slice
close[i-w+1..i] that pandas `rolling(window=w)` aggregates at position `i`. -/
def windowAt (w : ℕ) (xs : List ℚ) (i : ℕ) : List ℚ :=
  (xs.take (i + 1)).drop (i + 1 - w)

/-- pandas `Series.rolling(window=w).mean()`: `none` (NaN) until the window
has `w` observations, then the mean of the trailing window. -/
def rollingMean (w : ℕ) (xs : List ℚ) : List (Option ℚ) :=
  (List.range xs.length).map fun i =>
    if i + 1 < w then none else some (mean (windowAt w xs i))

/-- pandas `Series.rolling(window=w).std()`: `none` (NaN) until the window has
`w` observations, then the sample standard deviation of the trailing window. -/
noncomputable def rollingStd (w : ℕ) (xs : List ℚ) : List (Option ℝ) :=
  (List.range xs.length).map fun i =>
    if i + 1 < w then none else
      some (Real.sqrt ((sampleVar (windowAt w xs i) : ℚ) : ℝ))

/-- Elementwise combination of two index-aligned pandas series; a NaN (`none`)
on either side propagates, as in pandas arithmetic. -/
def seriesMap2 (f : ℝ → ℝ → ℝ) (a b : List (Option ℝ)) : List (Option ℝ) :=
  List.zipWith (fun x y => Option.map₂ f x y) a b

/-- Scalar multiple of a series, as in `std * no_of_std`. -/
def seriesScale (k : ℝ) (a : List (Option ℝ)) : List (Option ℝ) :=
  a.map (Option.map fun x => x * k)

/-- `bollinger_bands` from stock_app.py (lines 101-106): rolling mean and
rolling std of the close prices, upper and lower band at `ma ± std * k`;
returns the triple `(ma, upper, lower)`. -/
noncomputable def bollinger_bands (xs : List ℚ) (wnd : ℕ) (no_of_std : ℚ) :
    List (Option ℝ) × List (Option ℝ) × List (Option ℝ) :=
  let ma := (rollingMean wnd xs).map (Option.map (Rat.cast : ℚ → ℝ))
  let std := rollingStd wnd xs
  let upper := seriesMap2 (fun m s => m + s) ma (seriesScale (no_of_std : ℝ) std)
  let lower := seriesMap2 (fun m s => m - s) ma (seriesScale (no_of_std : ℝ) std)
  (ma, upper, lower)

/-- One unrolling of the pandas `ewm(span=s, adjust=False).mean()` recurrence:
given the previous smoothed value, emit `a*x + (1-a)*prev` for each element. -/
def emaStep (a : ℚ) (prev : ℚ) : List ℚ → List ℚ
  | [] => []
  | x :: xs => (a * x + (1 - a) * prev) :: emaStep a (a * x + (1 - a) * prev) xs

/-- pandas `Series.ewm(span=s, adjust=False).mean()`: seeded at the first
value, smoothing factor 2/(s+1). -/
def ewmMean (span : ℕ) (xs : List ℚ) : List ℚ :=
  match xs with
  | [] => []
  | x :: rest => x :: emaStep (2 / ((span : ℚ) + 1)) x rest

/-- `macd` from stock_app.py (lines 108-114): short and long EMA of close,
macd line = their difference, signal line = EMA of the macd line, histogram =
macd line - signal line; returns `(macd_line, signal_line, hist)`. -/
def macd (xs : List ℚ) (short : ℕ) (lng : ℕ) (sgn : ℕ) :
    List ℚ × List ℚ × List ℚ :=
  let exp1 := ewmMean short xs
  let exp2 := ewmMean lng xs
  let macd_line := List.zipWith (fun a b => a - b) exp1 exp2
  let signal_line := ewmMean sgn macd_line
  let hist := List.zipWith (fun a b => a - b) macd_line signal_line
  (macd_line, signal_line, hist)

/-- A fetched OHLCV row.  `date` is the date component of the timestamp (the
value compared by `raw_data.index.date`), `tod` the finer-than-date remainder
of the timestamp, which the range filter never inspects. -/
structure Row where
  date : Int
  tod : ℕ
  openPrice : ℚ
  high : ℚ
  low : ℚ
  close : ℚ
  volume : ℚ
  deriving DecidableEq, Repr

/-- The boolean date mask `(index.date >= start) & (index.date <= end)` of
stock_app.py line 98, applied to one row: date-only comparison, inclusive. -/
def inRange (s e : Int) (r : Row) : Bool :=
  decide (s ≤ r.date) && decide (r.date ≤ e)

/-- The filtered dataframe `raw_data.loc[mask].copy()` (line 98). -/
def filteredRows (rows : List Row) (s e : Int) : List Row :=
  rows.filter (inRange s e)

/-- Lines 93-98 of stock_app.py: if the start date is after the end date the
app stops with an error before the filter or any indicator computation runs;
otherwise the date-filtered rows are produced. -/
def rangeFilter (rows : List Row) (s e : Int) : Except String (List Row) :=
  if s > e then Except.error "InvalidRange"
  else Except.ok (filteredRows rows s e)

/-- A row of the derived table: the original OHLCV columns plus the six
indicator columns attached at lines 118-119. -/
structure DerivedRow where
  base : Row
  bbMA : Option ℝ
  bbUpper : Option ℝ
  bbLower : Option ℝ
  macdCol : Option ℚ
  signalCol : Option ℚ
  histogramCol : Option ℚ

/-- Column attachment: each row at position `i` receives the `i`-th entry of
the six indicator series computed from the close column `xs`. -/
noncomputable def attachFrom (xs : List ℚ) : ℕ → List Row → List DerivedRow
  | _, [] => []
  | i, r :: rs =>
    { base := r
      bbMA := (bollinger_bands xs 20 2).1.getD i none
      bbUpper := (bollinger_bands xs 20 2).2.1.getD i none
      bbLower := (bollinger_bands xs 20 2).2.2.getD i none
      macdCol := (macd xs 12 26 9).1[i]?
      signalCol := (macd xs 12 26 9).2.1[i]?
      histogramCol := (macd xs 12 26 9).2.2[i]? } :: attachFrom xs (i + 1) rs

/-- Lines 117-119 of stock_app.py: indicator columns are attached to the
filtered data only when it is non-empty (`if not data.empty`). -/
noncomputable def attachIndicators (rows : List Row) : List DerivedRow :=
  if rows.isEmpty then [] else attachFrom (rows.map Row.close) 0 rows

/-- The filter-then-compute pipeline: the InvalidRange check stops the app
before the indicator step ever runs. -/
noncomputable def pipeline (rows : List Row) (s e : Int) :
    Except String (List DerivedRow) :=
  (rangeFilter rows s e).map attachIndicators

/-- Outcome of the chart section (lines 143-198): a warning and no chart on
empty data, otherwise the main chart and optionally the MACD chart. -/
inductive ChartOutcome where
  | emptyNotice : ChartOutcome
  | charts : ℕ → ChartOutcome
  deriving DecidableEq, Repr

/-- The chart guard of lines 143-144: `if data.empty: st.warning(...)`. -/
def chartStep (d : List DerivedRow) (showMacd : Bool) : ChartOutcome :=
  if d.isEmpty then ChartOutcome.emptyNotice
  else ChartOutcome.charts (if showMacd then 2 else 1)

/-- Python strings modelled as their sequence of characters (code points). -/
abbrev PyStr := List Char

/-- The derived table rendered to text, as the export code sees it: an index
name, column names, the textual form of each index value and of each cell. -/
structure Frame where
  indexName : PyStr
  cols : List PyStr
  index : List PyStr
  rows : List (List PyStr)
  deriving DecidableEq, Repr

/-- `df.tail(5)` keeping the index: the last (at most) five rows. -/
def tail5 (t : Frame) : List (PyStr × List PyStr) :=
  (t.index.zip t.rows).drop (t.index.length - 5)

/-- Cell truncation of create_pdf lines 281-283: values longer than 18
characters are cut to their first 15 characters plus a three-dot marker. -/
def truncCell (s : PyStr) : PyStr :=
  if 18 < s.length then s.take 15 ++ "...".data else s

/-- Header row of the PDF summary table: `reset_index()` reinstates the index
as the first column; header texts are rendered as-is (lines 271-277). -/
def pdfHeaders (t : Frame) : List PyStr := t.indexName :: t.cols

/-- Body of the PDF summary table (lines 279-285): the last five rows, index
value first, every cell passed through `truncCell`. -/
def pdfTableRows (t : Frame) : List (List PyStr) :=
  (tail5 t).map fun p => (p.1 :: p.2).map truncCell

/-- Raster image bytes produced by the chart renderer. -/
abbrev Img := List ℕ

/-- Content items of the generated PDF report, in document order. -/
inductive PdfItem where
  | titleLine : PyStr → PdfItem
  | generatedLine : PdfItem
  | chartImage : Img → PdfItem
  | imageNote : PyStr → PdfItem
  | summaryTitle : PdfItem
  | tableHeader : List PyStr → PdfItem
  | tableRow : List PyStr → PdfItem
  deriving DecidableEq, Repr

/-- The fallback note of create_pdf line 263. -/
def imageUnavailableNote : PyStr :=
  "Chart image not available (kaleido may be missing). The data summary follows.".data

/-- `create_pdf` from stock_app.py (lines 227-287): the chart-to-PNG
conversion outcome is the `render` parameter; any conversion failure is
swallowed (`img_bytes = None`) and the document is built with either the
image or the fallback note, always followed by the last-5-rows table. -/
def create_pdf (render : Except PyStr Img) (t : Frame) (tick : PyStr) :
    List PdfItem :=
  let img : Option Img :=
    match render with
    | Except.ok b => some b
    | Except.error _ => none
  [PdfItem.titleLine tick, PdfItem.generatedLine]
    ++ (match img with
        | some b => [PdfItem.chartImage b]
        | none => [PdfItem.imageNote imageUnavailableNote])
    ++ [PdfItem.summaryTitle, PdfItem.tableHeader (pdfHeaders t)]
    ++ (pdfTableRows t).map PdfItem.tableRow

/-- `data.to_csv()` (line 212): header row = index name then the column names
in table order; one row per table row, index value first. -/
def toCsv (t : Frame) : List (List PyStr) :=
  (t.indexName :: t.cols) :: (t.index.zip t.rows).map fun p => p.1 :: p.2

/-- Re-parsing the CSV with the same layout and typing: the first row is the
header (index name first), and each body row is an index value followed by
the cells. -/
def parseCsv (csv : List (List PyStr)) : Option Frame :=
  match csv with
  | [] => none
  | [] :: _ => none
  | (idxName :: cols) :: body =>
    some { indexName := idxName
           cols := cols
           index := body.map fun r => r.headD []
           rows := body.map fun r => r.tail }

/-- The column names that can appear in the derived table (lines 118-119 and
153-154 of stock_app.py) together with the two possible names of the
reinstated index column. -/
def appColumnNames : List PyStr :=
  ["Date".data, "index".data, "Open".data, "High".data, "Low".data,
   "Close".data, "Volume".data, "BB_MA".data, "BB_upper".data,
   "BB_lower".data, "MACD".data, "Signal".data, "Histogram".data,
   "MA50".data, "MA200".data]

lemma length_rollingMean (w : ℕ) (xs : List ℚ) :
    (rollingMean w xs).length = xs.length := by
  simp [rollingMean]

lemma length_rollingStd (w : ℕ) (xs : List ℚ) :
    (rollingStd w xs).length = xs.length := by
  simp [rollingStd]

lemma getElem?_rollingMean (w : ℕ) (xs : List ℚ) (i : ℕ) (h : i < xs.length) :
    (rollingMean w xs)[i]? =
      some (if i + 1 < w then none else some (mean (windowAt w xs i))) := by
  simp [rollingMean, List.getElem?_range, h]

lemma getElem?_rollingStd (w : ℕ) (xs : List ℚ) (i : ℕ) (h : i < xs.length) :
    (rollingStd w xs)[i]? =
      some (if i + 1 < w then none else
        some (Real.sqrt ((sampleVar (windowAt w xs i) : ℚ) : ℝ))) := by
  simp [rollingStd, List.getElem?_range, h]

lemma bollinger_ma_getElem (xs : List ℚ) (wnd : ℕ) (k : ℚ) (i : ℕ)
    (h : i < xs.length) :
    (bollinger_bands xs wnd k).1[i]? =
      some (if i + 1 < wnd then none
        else some ((mean (windowAt wnd xs i) : ℚ) : ℝ)) := by
  simp only [bollinger_bands]
  rw [List.getElem?_map, getElem?_rollingMean wnd xs i h]
  split <;> simp

lemma bollinger_upper_getElem (xs : List ℚ) (wnd : ℕ) (k : ℚ) (i : ℕ)
    (h : i < xs.length) :
    (bollinger_bands xs wnd k).2.1[i]? =
      some (if i + 1 < wnd then none
        else some (((mean (windowAt wnd xs i) : ℚ) : ℝ) +
          Real.sqrt ((sampleVar (windowAt wnd xs i) : ℚ) : ℝ) * (k : ℝ))) := by
  simp only [bollinger_bands, seriesMap2, seriesScale]
  rw [List.getElem?_zipWith', List.getElem?_map, List.getElem?_map,
    getElem?_rollingMean wnd xs i h, getElem?_rollingStd wnd xs i h]
  split <;> simp [Option.map₂]

lemma bollinger_lower_getElem (xs : List ℚ) (wnd : ℕ) (k : ℚ) (i : ℕ)
    (h : i < xs.length) :
    (bollinger_bands xs wnd k).2.2[i]? =
      some (if i + 1 < wnd then none
        else some (((mean (windowAt wnd xs i) : ℚ) : ℝ) -
          Real.sqrt ((sampleVar (windowAt wnd xs i) : ℚ) : ℝ) * (k : ℝ))) := by
  simp only [bollinger_bands, seriesMap2, seriesScale]
  rw [List.getElem?_zipWith', List.getElem?_map, List.getElem?_map,
    getElem?_rollingMean wnd xs i h, getElem?_rollingStd wnd xs i h]
  split <;> simp [Option.map₂]

lemma windowAt_eq_drop_take (w : ℕ) (xs : List ℚ) (i : ℕ) (hw : w ≤ i + 1) :
    windowAt w xs i = (xs.drop (i + 1 - w)).take w := by
  rw [windowAt, List.drop_take]
  congr 1
  omega

lemma length_windowAt (w : ℕ) (xs : List ℚ) (i : ℕ) (hw : w ≤ i + 1)
    (hi : i < xs.length) :
    (windowAt w xs i).length = w := by
  simp only [windowAt, List.length_drop, List.length_take]
  omega

lemma length_emaStep (a : ℚ) (prev : ℚ) (l : List ℚ) :
    (emaStep a prev l).length = l.length := by
  induction l generalizing prev with
  | nil => rfl
  | cons x xs ih => simp [emaStep, ih]

lemma length_ewmMean (span : ℕ) (xs : List ℚ) :
    (ewmMean span xs).length = xs.length := by
  cases xs with
  | nil => rfl
  | cons x rest => simp [ewmMean, length_emaStep]

lemma emaStep_rec (a : ℚ) (prev : ℚ) (rest : List ℚ) (i : ℕ)
    (h : i < rest.length) :
    (prev :: emaStep a prev rest)[i + 1]? =
      Option.map₂ (fun x p => a * x + (1 - a) * p) rest[i]?
        ((prev :: emaStep a prev rest)[i]?) := by
  induction rest generalizing prev i with
  | nil => simp at h
  | cons x xs ih =>
    cases i with
    | zero => simp [emaStep, Option.map₂]
    | succ j =>
      have hj : j < xs.length := by simpa using h
      have hrec := ih (a * x + (1 - a) * prev) j hj
      simpa [emaStep] using hrec

lemma ewmMean_rec (span : ℕ) (xs : List ℚ) (i : ℕ) (h : i + 1 < xs.length) :
    (ewmMean span xs)[i + 1]? =
      Option.map₂
        (fun x p => (2 / ((span : ℚ) + 1)) * x + (1 - 2 / ((span : ℚ) + 1)) * p)
        xs[i + 1]? ((ewmMean span xs)[i]?) := by
  cases xs with
  | nil => simp at h
  | cons x rest =>
    have hr : i < rest.length := by simpa using h
    simpa [ewmMean] using emaStep_rec (2 / ((span : ℚ) + 1)) x rest i hr

lemma attachFrom_map_base (xs : List ℚ) (i : ℕ) (rs : List Row) :
    (attachFrom xs i rs).map DerivedRow.base = rs := by
  induction rs generalizing i with
  | nil => rfl
  | cons r rest ih => simp [attachFrom, ih]

/-- C1: Bollinger Bands with window 20 and multiplier 2 return three sequences
of the input length, aligned with the input; below index 19 all three entries
are no-value, and from index 19 on the moving average is the arithmetic mean
of close[i-19..i], the rolling standard deviation is the sample standard
deviation (denominator 19) of that same window, and the upper and lower bands
sit at the moving average plus and minus 2 times that standard deviation. -/
theorem C1_bollinger_bands_correct (xs : List ℚ) (i : ℕ) (hi : i < xs.length) :
    (bollinger_bands xs 20 2).1.length = xs.length ∧
    (bollinger_bands xs 20 2).2.1.length = xs.length ∧
    (bollinger_bands xs 20 2).2.2.length = xs.length ∧
    (i < 19 →
      (bollinger_bands xs 20 2).1[i]? = some none ∧
      (bollinger_bands xs 20 2).2.1[i]? = some none ∧
      (bollinger_bands xs 20 2).2.2[i]? = some none) ∧
    (19 ≤ i →
      ∃ mu sd : ℝ,
        mu = ((((xs.drop (i - 19)).take 20).sum / 20 : ℚ) : ℝ) ∧
        sd = Real.sqrt ((((((xs.drop (i - 19)).take 20).map
          (fun x => (x - ((xs.drop (i - 19)).take 20).sum / 20) ^ 2)).sum / 19 :
            ℚ) : ℝ)) ∧
        (bollinger_bands xs 20 2).1[i]? = some (some mu) ∧
        (rollingStd 20 xs)[i]? = some (some sd) ∧
        (bollinger_bands xs 20 2).2.1[i]? = some (some (mu + 2 * sd)) ∧
        (bollinger_bands xs 20 2).2.2[i]? = some (some (mu - 2 * sd))) := by
  refine ⟨?_, ?_, ?_, ?_, ?_⟩
  · simp [bollinger_bands, length_rollingMean]
  · simp [bollinger_bands, seriesMap2, seriesScale, length_rollingMean,
      length_rollingStd]
  · simp [bollinger_bands, seriesMap2, seriesScale, length_rollingMean,
      length_rollingStd]
  · intro hlt
    have hcond : i + 1 < 20 := by omega
    rw [bollinger_ma_getElem xs 20 2 i hi, bollinger_upper_getElem xs 20 2 i hi,
      bollinger_lower_getElem xs 20 2 i hi]
    simp [hcond]
  · intro hge
    have hcond : ¬ i + 1 < 20 := by omega
    have hw20 : 20 ≤ i + 1 := by omega
    have hsub : i + 1 - 20 = i - 19 := by omega
    have hwnd : windowAt 20 xs i = (xs.drop (i - 19)).take 20 := by
      rw [windowAt_eq_drop_take 20 xs i hw20, hsub]
    have hlen : (windowAt 20 xs i).length = 20 :=
      length_windowAt 20 xs i hw20 hi
    have hmean : mean (windowAt 20 xs i) =
        ((xs.drop (i - 19)).take 20).sum / 20 := by
      rw [mean, hlen, hwnd]
      norm_num
    have hvar : sampleVar (windowAt 20 xs i) =
        ((((xs.drop (i - 19)).take 20).map
          (fun x => (x - ((xs.drop (i - 19)).take 20).sum / 20) ^ 2)).sum /
            19 : ℚ) := by
      rw [sampleVar, hmean, hlen, hwnd]
      norm_num
    refine ⟨((((xs.drop (i - 19)).take 20).sum / 20 : ℚ) : ℝ),
      Real.sqrt ((((((xs.drop (i - 19)).take 20).map
        (fun x => (x - ((xs.drop (i - 19)).take 20).sum / 20) ^ 2)).sum / 19 :
          ℚ) : ℝ)), rfl, rfl, ?_, ?_, ?_, ?_⟩
    · rw [bollinger_ma_getElem xs 20 2 i hi]
      simp [hcond, hmean]
    · rw [getElem?_rollingStd 20 xs i hi]
      simp [hcond, hvar]
    · rw [bollinger_upper_getElem xs 20 2 i hi]
      simp [hcond, hmean, hvar, mul_comm]
    · rw [bollinger_lower_getElem xs 20 2 i hi]
      simp [hcond, hmean, hvar, mul_comm]

/-- Concrete close sequence used by the witnesses: twenty ones. -/
def witnessCloses : List ℚ := List.replicate 20 1

/-- Witness for C1: the theorem applied to twenty constant closes at index 19. -/
theorem C1_bollinger_bands_correct_witness :
    19 < witnessCloses.length ∧
    ((bollinger_bands witnessCloses 20 2).1.length = witnessCloses.length ∧
    (bollinger_bands witnessCloses 20 2).2.1.length = witnessCloses.length ∧
    (bollinger_bands witnessCloses 20 2).2.2.length = witnessCloses.length ∧
    (19 < 19 →
      (bollinger_bands witnessCloses 20 2).1[19]? = some none ∧
      (bollinger_bands witnessCloses 20 2).2.1[19]? = some none ∧
      (bollinger_bands witnessCloses 20 2).2.2[19]? = some none) ∧
    (19 ≤ 19 →
      ∃ mu sd : ℝ,
        mu = ((((witnessCloses.drop (19 - 19)).take 20).sum / 20 : ℚ) : ℝ) ∧
        sd = Real.sqrt ((((((witnessCloses.drop (19 - 19)).take 20).map
          (fun x => (x - ((witnessCloses.drop (19 - 19)).take 20).sum / 20) ^ 2)).sum / 19 :
            ℚ) : ℝ)) ∧
        (bollinger_bands witnessCloses 20 2).1[19]? = some (some mu) ∧
        (rollingStd 20 witnessCloses)[19]? = some (some sd) ∧
        (bollinger_bands witnessCloses 20 2).2.1[19]? = some (some (mu + 2 * sd)) ∧
        (bollinger_bands witnessCloses 20 2).2.2[19]? = some (some (mu - 2 * sd)))) :=
  ⟨by decide, C1_bollinger_bands_correct witnessCloses 19 (by decide)⟩

/-- C9: wherever the Bollinger Bands are defined (index at least 19), the
upper and lower band are symmetric about the moving average and ordered
around it: upper + lower = 2·ma and lower ≤ ma ≤ upper. -/
theorem C9_bands_symmetric_ordered (xs : List ℚ) (i : ℕ) (h19 : 19 ≤ i)
    (hi : i < xs.length) :
    ∃ m u l : ℝ,
      (bollinger_bands xs 20 2).1[i]? = some (some m) ∧
      (bollinger_bands xs 20 2).2.1[i]? = some (some u) ∧
      (bollinger_bands xs 20 2).2.2[i]? = some (some l) ∧
      u + l = 2 * m ∧ l ≤ m ∧ m ≤ u := by
  have hcond : ¬ i + 1 < 20 := by omega
  have hs : (0 : ℝ) ≤ Real.sqrt ((sampleVar (windowAt 20 xs i) : ℚ) : ℝ) :=
    Real.sqrt_nonneg _
  refine ⟨((mean (windowAt 20 xs i) : ℚ) : ℝ),
    ((mean (windowAt 20 xs i) : ℚ) : ℝ) +
      Real.sqrt ((sampleVar (windowAt 20 xs i) : ℚ) : ℝ) * 2,
    ((mean (windowAt 20 xs i) : ℚ) : ℝ) -
      Real.sqrt ((sampleVar (windowAt 20 xs i) : ℚ) : ℝ) * 2,
    ?_, ?_, ?_, by ring, by linarith, by linarith⟩
  · rw [bollinger_ma_getElem xs 20 2 i hi]
    simp [hcond]
  · rw [bollinger_upper_getElem xs 20 2 i hi]
    simp [hcond]
  · rw [bollinger_lower_getElem xs 20 2 i hi]
    simp [hcond]

/-- Witness for C9: the theorem applied to twenty constant closes at index 19. -/
theorem C9_bands_symmetric_ordered_witness :
    19 ≤ 19 ∧ 19 < witnessCloses.length ∧
    (∃ m u l : ℝ,
      (bollinger_bands witnessCloses 20 2).1[19]? = some (some m) ∧
      (bollinger_bands witnessCloses 20 2).2.1[19]? = some (some u) ∧
      (bollinger_bands witnessCloses 20 2).2.2[19]? = some (some l) ∧
      u + l = 2 * m ∧ l ≤ m ∧ m ≤ u) :=
  ⟨by decide, by decide,
    C9_bands_symmetric_ordered witnessCloses 19 (by decide) (by decide)⟩

lemma length_macd_fst (xs : List ℚ) : (macd xs 12 26 9).1.length = xs.length := by
  simp [macd, List.length_zipWith, length_ewmMean]

lemma length_macd_snd (xs : List ℚ) :
    (macd xs 12 26 9).2.1.length = xs.length := by
  simp [macd, List.length_zipWith, length_ewmMean]

lemma length_macd_hist (xs : List ℚ) :
    (macd xs 12 26 9).2.2.length = xs.length := by
  simp [macd, List.length_zipWith, length_ewmMean]

/-- C2: the EMA used by the MACD computation is seeded at the first close and
follows the adjust=false recurrence with smoothing factor 2/(S+1); the macd
line is the difference of the span-12 and span-26 EMAs, and the macd line,
signal line and histogram all have the input length with a defined value at
every index (no no-value entries). -/
theorem C2_ema_recurrence (xs : List ℚ) (hne : xs ≠ []) (S : ℕ) (hS : 0 < S) :
    (ewmMean S xs).length = xs.length ∧
    (ewmMean S xs)[0]? = xs[0]? ∧
    (∀ i, i + 1 < xs.length →
      ∃ x p, xs[i + 1]? = some x ∧ (ewmMean S xs)[i]? = some p ∧
        (ewmMean S xs)[i + 1]? =
          some ((2 / ((S : ℚ) + 1)) * x + (1 - 2 / ((S : ℚ) + 1)) * p)) ∧
    (macd xs 12 26 9).1 =
      List.zipWith (fun a b => a - b) (ewmMean 12 xs) (ewmMean 26 xs) ∧
    (macd xs 12 26 9).1.length = xs.length ∧
    (macd xs 12 26 9).2.1.length = xs.length ∧
    (macd xs 12 26 9).2.2.length = xs.length ∧
    (∀ i, i < xs.length →
      (macd xs 12 26 9).1[i]? ≠ none ∧ (macd xs 12 26 9).2.1[i]? ≠ none ∧
      (macd xs 12 26 9).2.2[i]? ≠ none) := by
  refine ⟨length_ewmMean S xs, ?_, ?_, rfl, length_macd_fst xs,
    length_macd_snd xs, length_macd_hist xs, ?_⟩
  · cases xs with
    | nil => rfl
    | cons x rest => simp [ewmMean]
  · intro i h
    have hi1 : i < xs.length := Nat.lt_of_succ_lt h
    have hi2 : i < (ewmMean S xs).length := by
      rw [length_ewmMean]
      exact hi1
    refine ⟨xs.get ⟨i + 1, h⟩, (ewmMean S xs).get ⟨i, hi2⟩, ?_, ?_, ?_⟩
    · simp [List.getElem?_eq_getElem h]
    · simp [List.getElem?_eq_getElem hi2]
    · rw [ewmMean_rec S xs i h, List.getElem?_eq_getElem h,
        List.getElem?_eq_getElem hi2]
      rfl
  · intro i h
    have h1 : i < (macd xs 12 26 9).1.length := by
      rw [length_macd_fst]
      exact h
    have h2 : i < (macd xs 12 26 9).2.1.length := by
      rw [length_macd_snd]
      exact h
    have h3 : i < (macd xs 12 26 9).2.2.length := by
      rw [length_macd_hist]
      exact h
    exact ⟨by simp [List.getElem?_eq_getElem h1],
      by simp [List.getElem?_eq_getElem h2],
      by simp [List.getElem?_eq_getElem h3]⟩

/-- Witness for C2: the theorem applied to the closes [1, 2, 3] and span 12. -/
theorem C2_ema_recurrence_witness :
    ([1, 2, 3] : List ℚ) ≠ [] ∧ 0 < 12 ∧
    ((ewmMean 12 [1, 2, 3]).length = ([1, 2, 3] : List ℚ).length ∧
    (ewmMean 12 [1, 2, 3])[0]? = ([1, 2, 3] : List ℚ)[0]? ∧
    (∀ i, i + 1 < ([1, 2, 3] : List ℚ).length →
      ∃ x p, ([1, 2, 3] : List ℚ)[i + 1]? = some x ∧
        (ewmMean 12 [1, 2, 3])[i]? = some p ∧
        (ewmMean 12 [1, 2, 3])[i + 1]? =
          some ((2 / ((12 : ℚ) + 1)) * x + (1 - 2 / ((12 : ℚ) + 1)) * p)) ∧
    (macd [1, 2, 3] 12 26 9).1 =
      List.zipWith (fun a b => a - b) (ewmMean 12 [1, 2, 3])
        (ewmMean 26 [1, 2, 3]) ∧
    (macd [1, 2, 3] 12 26 9).1.length = ([1, 2, 3] : List ℚ).length ∧
    (macd [1, 2, 3] 12 26 9).2.1.length = ([1, 2, 3] : List ℚ).length ∧
    (macd [1, 2, 3] 12 26 9).2.2.length = ([1, 2, 3] : List ℚ).length ∧
    (∀ i, i < ([1, 2, 3] : List ℚ).length →
      (macd [1, 2, 3] 12 26 9).1[i]? ≠ none ∧
      (macd [1, 2, 3] 12 26 9).2.1[i]? ≠ none ∧
      (macd [1, 2, 3] 12 26 9).2.2[i]? ≠ none)) :=
  ⟨by decide, by decide, C2_ema_recurrence [1, 2, 3] (by decide) 12 (by decide)⟩

/-- C3: the MACD histogram is exactly the macd line minus the signal line at
every index, where the signal line is the span-9 EMA (same recurrence) of the
macd line. -/
theorem C3_histogram_exact (xs : List ℚ) (i : ℕ) (hi : i < xs.length) :
    (macd xs 12 26 9).2.1 = ewmMean 9 (macd xs 12 26 9).1 ∧
    ∃ m s : ℚ, (macd xs 12 26 9).1[i]? = some m ∧
      (macd xs 12 26 9).2.1[i]? = some s ∧
      (macd xs 12 26 9).2.2[i]? = some (m - s) := by
  have h1 : i < (macd xs 12 26 9).1.length := by
    rw [length_macd_fst]
    exact hi
  have h2 : i < (macd xs 12 26 9).2.1.length := by
    rw [length_macd_snd]
    exact hi
  refine ⟨rfl, (macd xs 12 26 9).1.get ⟨i, h1⟩,
    (macd xs 12 26 9).2.1.get ⟨i, h2⟩, ?_, ?_, ?_⟩
  · simp [List.getElem?_eq_getElem h1]
  · simp [List.getElem?_eq_getElem h2]
  · show (List.zipWith (fun a b => a - b) (macd xs 12 26 9).1
      (macd xs 12 26 9).2.1)[i]? = _
    rw [List.getElem?_zipWith', List.getElem?_eq_getElem h1,
      List.getElem?_eq_getElem h2]
    rfl

/-- Witness for C3: the theorem applied to the closes [1, 2, 3] at index 2. -/
theorem C3_histogram_exact_witness :
    2 < ([1, 2, 3] : List ℚ).length ∧
    ((macd [1, 2, 3] 12 26 9).2.1 = ewmMean 9 (macd [1, 2, 3] 12 26 9).1 ∧
    ∃ m s : ℚ, (macd [1, 2, 3] 12 26 9).1[2]? = some m ∧
      (macd [1, 2, 3] 12 26 9).2.1[2]? = some s ∧
      (macd [1, 2, 3] 12 26 9).2.2[2]? = some (m - s)) :=
  ⟨by decide, C3_histogram_exact [1, 2, 3] 2 (by decide)⟩

/-- C4: if the start date is after the end date the pipeline rejects with the
InvalidRange error before any indicator computation; otherwise the filter
returns exactly the rows whose date-only timestamp component lies in the
inclusive interval, in their original order, regardless of the
finer-than-date part of the timestamp. -/
theorem C4_range_filter (rows : List Row) (s e : Int) :
    (e < s → pipeline rows s e = Except.error "InvalidRange" ∧
      rangeFilter rows s e = Except.error "InvalidRange") ∧
    (s ≤ e → ∃ out, rangeFilter rows s e = Except.ok out ∧
      pipeline rows s e = Except.ok (attachIndicators out) ∧
      out.Sublist rows ∧
      (∀ r, r ∈ out ↔ r ∈ rows ∧ s ≤ r.date ∧ r.date ≤ e)) := by
  constructor
  · intro hlt
    have hgt : s > e := hlt
    constructor
    · simp [pipeline, rangeFilter, hgt, Except.map]
    · simp [rangeFilter, hgt]
  · intro hle
    have hngt : ¬ s > e := not_lt.mpr hle
    refine ⟨filteredRows rows s e, ?_, ?_, ?_, ?_⟩
    · simp [rangeFilter, hngt]
    · simp [pipeline, rangeFilter, hngt, Except.map]
    · exact List.filter_sublist rows
    · intro r
      simp [filteredRows, List.mem_filter, inRange]

/-- Witness for C4: both branches of the theorem at rows = [], dates 0 and 1. -/
theorem C4_range_filter_witness :
    ((1 : Int) < 0 → pipeline [] 0 1 = Except.error "InvalidRange" ∧
      rangeFilter [] 0 1 = Except.error "InvalidRange") ∧
    ((0 : Int) ≤ 1 → ∃ out, rangeFilter [] 0 1 = Except.ok out ∧
      pipeline [] 0 1 = Except.ok (attachIndicators out) ∧
      out.Sublist [] ∧
      (∀ r, r ∈ out ↔ r ∈ ([] : List Row) ∧ 0 ≤ r.date ∧ r.date ≤ 1)) :=
  C4_range_filter [] 0 1

/-- C5: on the empty close sequence both indicator computations return empty
sequences and no error, the indicator guard attaches nothing, the chart step
renders no chart but an empty-data notice, and emptiness of the filtered
result is detectable by the caller. -/
theorem C5_empty_graceful :
    bollinger_bands [] 20 2 = ([], [], []) ∧
    macd [] 12 26 9 = ([], [], []) ∧
    attachIndicators [] = [] ∧
    (∀ b, chartStep [] b = ChartOutcome.emptyNotice) ∧
    (∀ d : List DerivedRow, d.isEmpty = true ↔ d = []) := by
  refine ⟨rfl, rfl, rfl, fun b => rfl, fun d => ?_⟩
  cases d <;> simp

/-- C10: attaching the indicator columns changes no OHLCV value and no row
order: mapping each derived row back to its base row gives back exactly the
input rows, for the filtered table as for any table; and the filter output is
a sublist of the untouched input table. -/
theorem C10_frame_preservation (rows : List Row) (s e : Int) :
    (attachIndicators rows).map DerivedRow.base = rows ∧
    (attachIndicators rows).length = rows.length ∧
    (attachIndicators (filteredRows rows s e)).map DerivedRow.base =
      filteredRows rows s e ∧
    (filteredRows rows s e).Sublist rows := by
  have key : ∀ rs : List Row, (attachIndicators rs).map DerivedRow.base = rs := by
    intro rs
    rw [attachIndicators]
    cases rs with
    | nil => rfl
    | cons r rest => simp [attachFrom_map_base]
  refine ⟨key rows, ?_, key (filteredRows rows s e), List.filter_sublist rows⟩
  have := congrArg List.length (key rows)
  simpa using this

lemma truncCell_length_le (s : PyStr) : (truncCell s).length ≤ 18 := by
  have h3 : ("...".data).length = 3 := by decide
  rw [truncCell]
  split <;> simp [List.length_append, List.length_take, h3] <;> omega

lemma appColumnNames_length_le : ∀ c ∈ appColumnNames, c.length ≤ 18 := by
  decide

/-- C6: the PDF summary table consists of exactly the last five rows of the
derived table with the index reinstated as the first column; every header and
every rendered cell is at most 18 characters, a cell whose text exceeds 18
characters being replaced by its first 15 characters plus the three-dot
marker, while headers (all drawn from the fixed derived-table column names)
are short enough as-is. -/
theorem C6_pdf_table (t : Frame) (hLen : t.index.length = t.rows.length)
    (hIdx : t.indexName ∈ appColumnNames)
    (hCols : ∀ c ∈ t.cols, c ∈ appColumnNames) :
    pdfHeaders t = t.indexName :: t.cols ∧
    pdfTableRows t = ((t.index.zip t.rows).drop (t.index.length - 5)).map
      (fun p => (p.1 :: p.2).map
        (fun s => if 18 < s.length then s.take 15 ++ "...".data else s)) ∧
    (pdfTableRows t).length = min 5 t.rows.length ∧
    (∀ h ∈ pdfHeaders t, h.length ≤ 18) ∧
    (∀ r ∈ pdfTableRows t, ∀ c ∈ r, c.length ≤ 18) := by
  refine ⟨rfl, rfl, ?_, ?_, ?_⟩
  · simp [pdfTableRows, tail5, List.length_zip, hLen]
    omega
  · intro h hh
    have hmem : h ∈ appColumnNames := by
      rcases List.mem_cons.1 hh with h1 | h2
      · rw [h1]
        exact hIdx
      · exact hCols h h2
    exact appColumnNames_length_le h hmem
  · intro r hr c hc
    simp only [pdfTableRows, List.mem_map] at hr
    obtain ⟨p, hp, hrp⟩ := hr
    rw [← hrp] at hc
    simp only [List.mem_map] at hc
    obtain ⟨s, hs, hsc⟩ := hc
    rw [← hsc]
    exact truncCell_length_le s

/-- Concrete rendered derived table used by the export witnesses. -/
def witnessFrame : Frame :=
  { indexName := "Date".data
    cols := ["Close".data]
    index := ["2024-01-02".data]
    rows := [["101.5".data]] }

/-- Witness for C6: the theorem applied to a one-row concrete derived table. -/
theorem C6_pdf_table_witness :
    witnessFrame.index.length = witnessFrame.rows.length ∧
    witnessFrame.indexName ∈ appColumnNames ∧
    (∀ c ∈ witnessFrame.cols, c ∈ appColumnNames) ∧
    (pdfHeaders witnessFrame = witnessFrame.indexName :: witnessFrame.cols ∧
    pdfTableRows witnessFrame =
      ((witnessFrame.index.zip witnessFrame.rows).drop
        (witnessFrame.index.length - 5)).map
      (fun p => (p.1 :: p.2).map
        (fun s => if 18 < s.length then s.take 15 ++ "...".data else s)) ∧
    (pdfTableRows witnessFrame).length = min 5 witnessFrame.rows.length ∧
    (∀ h ∈ pdfHeaders witnessFrame, h.length ≤ 18) ∧
    (∀ r ∈ pdfTableRows witnessFrame, ∀ c ∈ r, c.length ≤ 18)) :=
  ⟨by decide, by decide, by decide,
    C6_pdf_table witnessFrame (by decide) (by decide) (by decide)⟩

/-- C7: whatever the image-rendering failure, the PDF export still produces a
well-formed document: title, generation line, the image-unavailable note, and
then the last-5-rows data table; the export itself never fails. -/
theorem C7_pdf_image_failure (e : PyStr) (t : Frame) (tick : PyStr) :
    create_pdf (Except.error e) t tick =
      [PdfItem.titleLine tick, PdfItem.generatedLine,
       PdfItem.imageNote imageUnavailableNote, PdfItem.summaryTitle,
       PdfItem.tableHeader (pdfHeaders t)] ++
        (pdfTableRows t).map PdfItem.tableRow ∧
    create_pdf (Except.error e) t tick ≠ [] := by
  constructor
  · rfl
  · simp [create_pdf]

/-- C8: the CSV export writes the header row as the index name followed by the
column names in table order, one row per table row, and re-parsing the CSV
with the same layout reproduces the table exactly. -/
theorem C8_csv_roundtrip (t : Frame) (h : t.index.length = t.rows.length) :
    (toCsv t).headD [] = t.indexName :: t.cols ∧
    (toCsv t).length = t.rows.length + 1 ∧
    parseCsv (toCsv t) = some t := by
  refine ⟨rfl, ?_, ?_⟩
  · simp [toCsv, List.length_zip, h]
  · have h1 : (((t.index.zip t.rows).map fun p => p.1 :: p.2).map
        fun r => r.headD []) = t.index := by
      rw [List.map_map]
      have heq : ((fun r : List PyStr => r.headD []) ∘
          fun p : PyStr × List PyStr => p.1 :: p.2) = Prod.fst := rfl
      rw [heq, List.map_fst_zip t.index t.rows (le_of_eq h)]
    have h2 : (((t.index.zip t.rows).map fun p => p.1 :: p.2).map
        fun r => r.tail) = t.rows := by
      rw [List.map_map]
      have heq : ((fun r : List PyStr => r.tail) ∘
          fun p : PyStr × List PyStr => p.1 :: p.2) = Prod.snd := rfl
      rw [heq, List.map_snd_zip t.index t.rows (le_of_eq h.symm)]
    show some
      { indexName := t.indexName
        cols := t.cols
        index := ((t.index.zip t.rows).map fun p => p.1 :: p.2).map
          fun r => r.headD []
        rows := ((t.index.zip t.rows).map fun p => p.1 :: p.2).map
          fun r => r.tail } = some t
    rw [h1, h2]

/-- Witness for C8: the theorem applied to a one-row concrete derived table. -/
theorem C8_csv_roundtrip_witness :
    witnessFrame.index.length = witnessFrame.rows.length ∧
    ((toCsv witnessFrame).headD [] =
        witnessFrame.indexName :: witnessFrame.cols ∧
    (toCsv witnessFrame).length = witnessFrame.rows.length + 1 ∧
    parseCsv (toCsv witnessFrame) = some witnessFrame) :=
  ⟨by decide, C8_csv_roundtrip witnessFrame (by decide)⟩

end StockApp
